import Mathlib

/-!
Verification of the replication engine of the `rdt` repository.

The definitions below are a shallow embedding of `helpers/replication.py`
(classes `ReplicationStore` and `ReplicationManager`) and of
`normalize_identifier` from `helpers/forwarding.py`.

Modelling conventions:
* SQLite tables become association lists keyed by the table's primary key;
  `INSERT OR REPLACE` becomes an erase-then-insert update, so lookups and
  per-key row counts agree with the SQL semantics.
* The Telegram client (`pyrogram.Client`) becomes an `Env`: the source
  channel's history is a list of messages in ascending-id order, and each
  platform send call (`send_message`, `copy_media_group`, `copy_message`,
  the re-upload in `_bypass_restriction`, ...) consumes the next entry of a
  response script `Env.script`, indexed by the number of sends made so far.
  A script entry is either a sent message id, a list of sent ids (for
  `copy_media_group`), a `FloodWait`, or another exception (with a flag
  telling whether it matches the "restriction" keywords that trigger the
  download/re-upload fallback).
* Awaited sleeps (`asyncio.sleep` in the FloodWait handler) are recorded in
  a `slept` counter (seconds).
* Caption/text link rewriting (`_rewrite_links`) only transforms the text
  payload that is handed to the platform; it reads but never writes the
  store, so the payload itself is not tracked here.
* `BackfillStats.examined` is a specification-only ghost field recording the
  id of every item the backfill loop examined, in processing order; the four
  numeric counters mirror the Python `stats` dict.
-/

namespace RDT

/-! ## Association-list primitives (SQLite tables) -/

/-- Lookup of the first row with the given key. -/
def alist_get {K : Type} [DecidableEq K] : List (K × Int) → K → Option Int
  | [], _ => none
  | (k', v) :: l, k => if k' = k then some v else alist_get l k

/-- Remove every row with the given key. -/
def alist_erase {K : Type} [DecidableEq K] : List (K × Int) → K → List (K × Int)
  | [], _ => []
  | (k', v) :: l, k => if k' = k then alist_erase l k else (k', v) :: alist_erase l k

/-- `INSERT OR REPLACE`: at most one row per key survives. -/
def alist_put {K : Type} [DecidableEq K] (l : List (K × Int)) (k : K) (v : Int) :
    List (K × Int) :=
  (k, v) :: alist_erase l k

/-- Number of rows with the given key. -/
def alist_count {K : Type} [DecidableEq K] : List (K × Int) → K → Nat
  | [], _ => 0
  | (k', _) :: l, k => (if k' = k then 1 else 0) + alist_count l k

/-- The keys of the table are pairwise distinct (the `PRIMARY KEY` invariant,
which SQLite enforces and which every sequence of `alist_put` updates
preserves). -/
def alist_wf {K : Type} (l : List (K × Int)) : Prop := (l.map Prod.fst).Nodup

/-! ## Messages -/

/-- A normalized view of a `pyrogram.types.Message`, keeping exactly the
attributes that `replication.py` probes.  Media payloads (`file_id`s,
captions, coordinates, ...) do not influence control flow or state, so each
media attribute is kept as a presence flag. -/
structure MMessage where
  id : Int
  chat_id : Int := 0
  service : Bool := false
  outgoing : Bool := false
  edit_date : Option Int := none
  media_group_id : Option Int := none
  reply_to_message_id : Option Int := none
  text : String := ""
  caption : String := ""
  has_poll : Bool := false
  /-- truthiness of `poll.question` -/
  poll_question : Bool := false
  /-- `len(poll.options)` -/
  poll_num_options : Nat := 0
  has_document : Bool := false
  has_photo : Bool := false
  has_video : Bool := false
  has_audio : Bool := false
  has_voice : Bool := false
  has_video_note : Bool := false
  has_animation : Bool := false
  has_sticker : Bool := false
  has_contact : Bool := false
  has_location : Bool := false
  has_venue : Bool := false
  deriving Repr, DecidableEq

/-- Which platform send API `_copy_message` invoked. -/
inductive SendKind where
  | mediaGroup   -- `copy_media_group`
  | poll | text | document | photo | video | audio | voice
  | video_note | animation | sticker | contact | location | venue
  | copy         -- fallback `copy_message`
  | bypass       -- re-upload inside `_bypass_restriction`
  deriving Repr, DecidableEq

/-- One platform send call, as observed at the client boundary. -/
structure SendOp where
  kind : SendKind
  target_chat : Int
  source_chat : Int
  message_id : Int
  reply_to_message_id : Option Int := none
  deriving Repr, DecidableEq

/-- The platform's response to one send call. -/
inductive SendOutcome where
  | sent (id : Int)
  | sentGroup (ids : List Int)
  | floodWait (seconds : Nat)
  /-- any other exception; `restricted` tells whether `str(e)` matches the
  keywords (`CHAT_FORWARDS_RESTRICTED`, `FILEREF`, ...) that trigger the
  download/re-upload fallback -/
  | exn (restricted : Bool)
  deriving Repr, DecidableEq

/-- Result of the singular-send section as seen by the surrounding
`try`/`except` of `_copy_message`. -/
inductive SendFlow where
  | done (sent_id : Option Int)
  | flood (seconds : Nat)
  | raised (restricted : Bool)
  deriving Repr, DecidableEq

/-! ## The store (`ReplicationStore`) -/

/-- The two SQLite tables of `ReplicationStore`: `message_map` keyed by
`(source_chat, source_msg, target_chat)` and `sync_state` keyed by
`(source_chat, target_chat)`. -/
structure Store where
  message_map : List ((Int × Int × Int) × Int) := []
  sync_state : List ((Int × Int) × Int) := []
  deriving Repr, DecidableEq

/-- `ReplicationStore.set_mapping` (INSERT OR REPLACE). -/
def Store.set_mapping (st : Store) (source_chat source_msg target_chat target_msg : Int) :
    Store :=
  { st with message_map :=
      alist_put st.message_map (source_chat, source_msg, target_chat) target_msg }

/-- `ReplicationStore.get_target_msg_id`. -/
def Store.get_target_msg_id (st : Store) (source_chat source_msg target_chat : Int) :
    Option Int :=
  alist_get st.message_map (source_chat, source_msg, target_chat)

/-- `ReplicationStore.is_cloned`. -/
def Store.is_cloned (st : Store) (source_chat source_msg target_chat : Int) : Bool :=
  (st.get_target_msg_id source_chat source_msg target_chat).isSome

/-- `ReplicationStore.get_last_synced_id` (0 if no row). -/
def Store.get_last_synced_id (st : Store) (source_chat target_chat : Int) : Int :=
  match alist_get st.sync_state (source_chat, target_chat) with
  | some v => v
  | none => 0

/-- `ReplicationStore.set_last_synced_id` (INSERT OR REPLACE). -/
def Store.set_last_synced_id (st : Store) (source_chat target_chat msg_id : Int) : Store :=
  { st with sync_state := alist_put st.sync_state (source_chat, target_chat) msg_id }

/-- Number of `message_map` rows with the given primary key. -/
def Store.rowCount (st : Store) (source_chat source_msg target_chat : Int) : Nat :=
  alist_count st.message_map (source_chat, source_msg, target_chat)

/-- The `PRIMARY KEY` invariant of the `message_map` table. -/
def Store.WF (st : Store) : Prop := alist_wf st.message_map

/-! ## Configuration (`config_store` contents used by `ReplicationManager`) -/

/-- One element of `cfg["replication_mappings"]`. -/
structure MappingRule where
  source : Int
  target : Int
  enabled : Bool := true
  deriving Repr, DecidableEq

structure Config where
  replication_enabled : Bool := false
  replication_mappings : List MappingRule := []
  deriving Repr, DecidableEq

/-- `ReplicationManager.is_enabled`. -/
def is_enabled (cfg : Config) : Bool := cfg.replication_enabled

/-- `ReplicationManager.get_targets_for_source`. -/
def get_targets_for_source (cfg : Config) (source_chat : Int) : List Int :=
  if !is_enabled cfg then []
  else
    (cfg.replication_mappings.filter
      (fun m => m.enabled && decide (m.source = source_chat))).map (·.target)

/-! ## The platform environment -/

/-- The Telegram side: the source channel's full history in ascending-id
order, and the scripted responses of the platform, indexed by how many send
calls have been made so far. -/
structure Env where
  channel : List MMessage := []
  script : Nat → SendOutcome := fun _ => SendOutcome.exn false

/-- Channel histories carry pairwise-distinct message ids. -/
def Env.WF (env : Env) : Prop := (env.channel.map (·.id)).Nodup

/-- Insertion step of the ascending-by-id sort. -/
def insertById (m : MMessage) : List MMessage → List MMessage
  | [] => [m]
  | x :: xs => if m.id < x.id then m :: x :: xs else x :: insertById m xs

/-- Ascending sort by message id; models `batch.sort(key=lambda m: m.id)` and
the ascending order in which `get_media_group` returns an album. -/
def sortById : List MMessage → List MMessage
  | [] => []
  | x :: xs => insertById x (sortById xs)

/-- Python `min(msgs, key=lambda m: m.id)` over `m :: rest` (keeps the first
minimal element). -/
def minById (m : MMessage) : List MMessage → MMessage
  | [] => m
  | x :: xs => if x.id < m.id then minById x xs else minById m xs

/-- `client.get_media_group(source_chat, message.id)`: the album containing
the message, in ascending id order. -/
def Env.get_media_group (env : Env) (gid : Int) : List MMessage :=
  sortById (env.channel.filter (fun m => m.media_group_id == some gid))

/-- `client.get_chat_history(source_chat, limit=limit, offset=offset)`:
newest-first, skipping the newest `offset` messages. -/
def Env.chat_history (env : Env) (limit offset : Nat) : List MMessage :=
  ((env.channel.reverse).drop offset).take limit

/-! ## Mutable engine state -/

/-- The mutable state threaded through `ReplicationManager`: the SQLite
store, the in-memory `_media_group_cache` (keys `(source, group id, target)`
standing for the f-string key), plus observation logs of the platform
interaction: the number of send calls so far (the script index), the list of
send calls, and the seconds slept in FloodWait handling. -/
structure CState where
  store : Store := {}
  media_group_cache : List (Int × Int × Int) := []
  attempts : Nat := 0
  sends : List SendOp := []
  slept : Nat := 0
  deriving Repr, DecidableEq

/-- Initial state: empty store, empty cache, no sends. -/
def cstate0 : CState := {}

/-- Perform one platform send call: log it and consume the script entry. -/
def CState.platform_send (st : CState) (env : Env) (kind : SendKind)
    (target_chat source_chat message_id : Int) (reply : Option Int) :
    SendOutcome × CState :=
  (env.script st.attempts,
   { st with
       attempts := st.attempts + 1,
       sends := st.sends ++ [⟨kind, target_chat, source_chat, message_id, reply⟩] })

/-! ## The identifier normalizer -/

/-- Python `str.strip()` (whitespace removed at both ends), on characters. -/
def py_strip_chars (l : List Char) : List Char :=
  ((l.dropWhile Char.isWhitespace).reverse.dropWhile Char.isWhitespace).reverse

/-- Python `str.startswith(pre)`. -/
def py_startswith (pre l : List Char) : Bool := pre.isPrefixOf l

/-- Python `s.rstrip("/")`. -/
def rstrip_slash_chars (l : List Char) : List Char :=
  (l.reverse.dropWhile (fun c => c == '/')).reverse

/-- Python `s.rsplit("/", 1)[-1]`: everything after the last slash (the
whole string when it holds no slash). -/
def after_last_slash_chars (l : List Char) : List Char :=
  (l.reverse.takeWhile (fun c => !(c == '/'))).reverse

/-- `normalize_identifier` from `helpers/forwarding.py`. -/
def normalize_identifier (s : String) : String :=
  let l := py_strip_chars s.data
  if py_startswith ['@'] l then String.mk (l.drop 1)
  else if py_startswith "https://t.me/".data l then
    String.mk (after_last_slash_chars (rstrip_slash_chars l))
  else String.mk l

/-- Python `s.replace("-", "")`: drop every dash. -/
def strip_dashes_chars (l : List Char) : List Char := l.filter (fun c => decide (c ≠ '-'))

/-- Python `s.isdigit()` (restricted to ASCII digits). -/
def py_is_digit_chars (l : List Char) : Bool := !l.isEmpty && l.all Char.isDigit

/-- Decimal value of a digit string. -/
def digits_to_nat (l : List Char) : Nat :=
  l.foldl (fun a c => a * 10 + (c.toNat - '0'.toNat)) 0

/-- Python `int(s)` on a string made of digits and dashes: succeeds exactly
on an optional single leading minus followed by one or more digits, raises
`ValueError` (here: `none`) otherwise. -/
def py_int_of_chars? : List Char → Option Int
  | [] => none
  | c :: rest =>
      if c = '-' then
        (if py_is_digit_chars rest then some (-(digits_to_nat rest : Int)) else none)
      else (if py_is_digit_chars (c :: rest) then some ((digits_to_nat (c :: rest) : Int)) else none)

/-- The value of `ident` in `_resolve_chat_id` after the deep-link and `@`
stripping steps (the non-invite branch). -/
def resolve_remainder_chars (s : String) : List Char :=
  let ident := py_strip_chars s.data
  let ident :=
    if py_startswith "https://t.me/".data ident then
      after_last_slash_chars (rstrip_slash_chars ident)
    else ident
  if py_startswith ['@'] ident then ident.drop 1 else ident

/-- What `_resolve_chat_id` decides to do with an identifier (the pure
classification performed before any network call). -/
inductive ResolveAction where
  /-- return the numeric id directly -/
  | chat_id (n : Int)
  /-- `join_chat` on an invite link -/
  | join_invite (link : String)
  /-- fall through to `get_chat(ident)` -/
  | get_chat (username : String)
  /-- an exception was raised and caught; `_resolve_chat_id` returns `None` -/
  | failed
  deriving Repr, DecidableEq

/-- The pure classification part of `ReplicationManager._resolve_chat_id`
(`Union[str, int]` argument). -/
def resolve_chat_id_action : Int ⊕ String → ResolveAction
  | Sum.inl n => ResolveAction.chat_id n
  | Sum.inr s =>
      if py_startswith "https://t.me/+".data (py_strip_chars s.data) then
        ResolveAction.join_invite (String.mk (py_strip_chars s.data))
      else
        let ident := resolve_remainder_chars s
        if py_is_digit_chars (strip_dashes_chars ident) then
          match py_int_of_chars? ident with
          | some n => ResolveAction.chat_id n
          | none => ResolveAction.failed
        else ResolveAction.get_chat (String.mk ident)

/-! ## The transcription engine (`ReplicationManager._copy_message`) -/

/-- How a singular send outcome is seen when its exceptions propagate to the
outer `try`/`except` of `_copy_message`. -/
def outcomeFlow : SendOutcome → SendFlow
  | SendOutcome.sent i => SendFlow.done (some i)
  | SendOutcome.sentGroup _ => SendFlow.done none
  | SendOutcome.floodWait s => SendFlow.flood s
  | SendOutcome.exn r => SendFlow.raised r

/-- How the poll branch sees a send outcome: its inner `try`/`except`
swallows every exception, leaving `sent = None`. -/
def outcomeSwallow : SendOutcome → Option Int
  | SendOutcome.sent i => some i
  | _ => none

/-- Which branch of the `if poll / elif text / elif document / ...` chain of
`_copy_message` fires, paired with whether that branch swallows exceptions
(only the poll branch has an inner `try`/`except`).  `none` means no branch
sends (so `sent` stays `None` and the fallback `copy_message` runs). -/
def singular_kind (message : MMessage) : Option (SendKind × Bool) :=
  if message.has_poll then
    if message.poll_question && decide (2 ≤ message.poll_num_options) then
      some (SendKind.poll, true)
    else none
  else if message.text ≠ "" then some (SendKind.text, false)
  else if message.has_document then some (SendKind.document, false)
  else if message.has_photo then some (SendKind.photo, false)
  else if message.has_video then some (SendKind.video, false)
  else if message.has_audio then some (SendKind.audio, false)
  else if message.has_voice then some (SendKind.voice, false)
  else if message.has_video_note then some (SendKind.video_note, false)
  else if message.has_animation then some (SendKind.animation, false)
  else if message.has_sticker then some (SendKind.sticker, false)
  else if message.has_contact then some (SendKind.contact, false)
  else if message.has_location && !message.has_venue then some (SendKind.location, false)
  else if message.has_venue then some (SendKind.venue, false)
  else none

/-- Sections 2-14 of `_copy_message`: at most one kind-appropriate send. -/
def singular_send (env : Env) (source_chat target_chat : Int) (message : MMessage)
    (reply : Option Int) (st : CState) : SendFlow × CState :=
  match singular_kind message with
  | none => (SendFlow.done none, st)
  | some (k, swallow) =>
      let (o, st) := st.platform_send env k target_chat source_chat message.id reply
      ((if swallow then SendFlow.done (outcomeSwallow o) else outcomeFlow o), st)

/-- Sections 2-15: the chain above followed by the `if sent is None` fallback
`copy_message` call. -/
def singular_send_with_fallback (env : Env) (source_chat target_chat : Int)
    (message : MMessage) (reply : Option Int) (st : CState) : SendFlow × CState :=
  match singular_send env source_chat target_chat message reply st with
  | (SendFlow.done none, st) =>
      let (o, st) := st.platform_send env SendKind.copy target_chat source_chat message.id reply
      (outcomeFlow o, st)
  | r => r

/-- The `for src_m, tgt_m in zip(msgs, sent_msgs): set_mapping(...)` loop. -/
def zip_set_mappings (source_chat target_chat : Int) :
    Store → List MMessage → List Int → Store
  | s, src_m :: ms, tgt :: ts =>
      zip_set_mappings source_chat target_chat
        (s.set_mapping source_chat src_m.id target_chat tgt) ms ts
  | s, _, _ => s

/-- Section 1 of `_copy_message` (the media-group branch).  The result's
first component is `some r` when the branch returns `r` from the function,
and `none` when control falls through to the singular sends (empty album,
or any exception inside the branch's `try`, which `except Exception: pass`
swallows -- including a `FloodWait` from `copy_media_group`). -/
def media_group_section (env : Env) (source_chat target_chat : Int) (message : MMessage)
    (gid : Int) (reply : Option Int) (st : CState) : Option (Option Int) × CState :=
  let mg_key := (source_chat, gid, target_chat)
  if mg_key ∈ st.media_group_cache then (some none, st)
  else
    match env.get_media_group gid with
    | [] => (none, st)
    | m0 :: rest =>
        let first_msg := minById m0 rest
        if message.id = first_msg.id then
          let st := { st with media_group_cache := mg_key :: st.media_group_cache }
          let (o, st) :=
            st.platform_send env SendKind.mediaGroup target_chat source_chat message.id reply
          match o with
          | SendOutcome.sentGroup (i0 :: irest) =>
              (some (some i0),
               { st with store :=
                   zip_set_mappings source_chat target_chat st.store (m0 :: rest) (i0 :: irest) })
          | _ => (none, st)
        else (some none, st)

/-- The `reply_to_msg_id` resolution of `_copy_message`: the mapped target
id of the replied-to message, or `None` (top-level copy) when the message
is no reply or the reply target has no mapping yet. -/
def resolve_reply (store : Store) (source_chat target_chat : Int) (message : MMessage) :
    Option Int :=
  match message.reply_to_message_id with
  | some r => store.get_target_msg_id source_chat r target_chat
  | none => none

/-- Sections 2-15 of `_copy_message` together with the surrounding exception
handling: the singular send (with fallback), the mapping write on success,
the `FloodWait` escape (`Sum.inr`), and the restriction bypass. -/
def singular_section (env : Env) (source_chat target_chat : Int) (message : MMessage)
    (reply_to_msg_id : Option Int) (st : CState) :
    ((Option Int) × CState) ⊕ (Nat × CState) :=
  match singular_send_with_fallback env source_chat target_chat message reply_to_msg_id st with
  | (SendFlow.done (some sent_id), st) =>
      -- `if sent:` then `if sent_id:` (0 is falsy) then record mapping
      if sent_id ≠ 0 then
        Sum.inl (some sent_id,
          { st with store := st.store.set_mapping source_chat message.id target_chat sent_id })
      else Sum.inl (none, st)
  | (SendFlow.done none, st) => Sum.inl (none, st)
  | (SendFlow.flood v, st) => Sum.inr (v, st)
  | (SendFlow.raised true, st) =>
      -- restriction keywords matched: `_bypass_restriction` re-upload
      let (o, st) :=
        st.platform_send env SendKind.bypass target_chat source_chat message.id reply_to_msg_id
      match o with
      | SendOutcome.sent bid =>
          if bid ≠ 0 then
            Sum.inl (some bid,
              { st with store := st.store.set_mapping source_chat message.id target_chat bid })
          else Sum.inl (none, st)
      | _ => Sum.inl (none, st)
  | (SendFlow.raised false, st) => Sum.inl (none, st)

/-- One attempt of `_copy_message`: the body of its `try` together with the
generic `except Exception` handler (restriction bypass or `return None`).
`Sum.inr (v, st)` means a `FloodWait v` escaped to the outer handler, whose
sleep-and-retry logic lives in `copy_message` below. -/
def copy_attempt (env : Env) (source_chat target_chat : Int) (message : MMessage)
    (st : CState) : ((Option Int) × CState) ⊕ (Nat × CState) :=
  -- skip service messages
  if message.service then Sum.inl (none, st)
  -- idempotent short-circuit on the mapping store
  else if st.store.is_cloned source_chat message.id target_chat then
    Sum.inl (st.store.get_target_msg_id source_chat message.id target_chat, st)
  else
    let reply_to_msg_id := resolve_reply st.store source_chat target_chat message
    let mg : Option (Option Int) × CState :=
      match message.media_group_id with
      | some gid => media_group_section env source_chat target_chat message gid reply_to_msg_id st
      | none => (none, st)
    match mg with
    | (some r, st) => Sum.inl (r, st)
    | (none, st) => singular_section env source_chat target_chat message reply_to_msg_id st

/-- `ReplicationManager._copy_message`.  `retries_left` plays the role of
`3 - retry_count` of the source (the recursion guard there is
`retry_count < 3`, so the top-level call has `retries_left = 3`): on a
`FloodWait v` the engine sleeps `v + 1` seconds and retries while the guard
allows, otherwise gives up with `None`. -/
def copy_message (env : Env) (source_chat target_chat : Int) (message : MMessage) :
    Nat → CState → Option Int × CState
  | retries_left, st =>
    match copy_attempt env source_chat target_chat message st with
    | Sum.inl r => r
    | Sum.inr (v, st) =>
        -- `except FloodWait as e: await asyncio.sleep(e.value + 1)` then bounded retry
        let st := { st with slept := st.slept + (v + 1) }
        match retries_left with
        | r + 1 => copy_message env source_chat target_chat message r st
        | 0 => (none, st)

/-- The spec's `replicate(source, target, message)`: `_copy_message` at
`retry_count = 0`. -/
def replicate (env : Env) (source_chat target_chat : Int) (message : MMessage)
    (st : CState) : Option Int × CState :=
  copy_message env source_chat target_chat message 3 st

/-! ## The real-time listener (`ReplicationManager.handle_new_message`) -/

def handle_new_message (env : Env) (cfg : Config) (message : MMessage) (st : CState) :
    CState :=
  if !is_enabled cfg then st
  else if message.outgoing then st
  else if message.edit_date.isSome then st
  else
    let source_chat := message.chat_id
    let targets := get_targets_for_source cfg source_chat
    if targets.isEmpty then st
    else
      targets.foldl
        (fun st target_chat =>
          let (_, st) := replicate env source_chat target_chat message st
          { st with store := st.store.set_last_synced_id source_chat target_chat message.id })
        st

/-! ## The backfill scheduler (`ReplicationManager.backfill`) -/

/-- The Python `stats` dict plus the ghost `examined` trace (ids in
processing order; not part of the source dict). -/
structure BackfillStats where
  processed : Nat := 0
  cloned : Nat := 0
  skipped : Nat := 0
  failed : Nat := 0
  examined : List Int := []
  deriving Repr, DecidableEq

/-- The body of `for msg in batch:`.  The `except` arm that increments
`failed` is unreachable here because the embedded `replicate` is total (in
the source it fires only on non-platform errors such as store I/O). -/
def backfill_item (env : Env) (source_chat target_chat : Int) (msg : MMessage)
    (acc : BackfillStats × CState) : BackfillStats × CState :=
  let (stats, st) := acc
  let stats := { stats with
    processed := stats.processed + 1,
    examined := stats.examined ++ [msg.id] }
  if st.store.is_cloned source_chat msg.id target_chat then
    ({ stats with skipped := stats.skipped + 1 },
     { st with store := st.store.set_last_synced_id source_chat target_chat msg.id })
  else
    let (result, st) := replicate env source_chat target_chat msg st
    let stats :=
      match result with
      | some _ => { stats with cloned := stats.cloned + 1 }
      | none => { stats with skipped := stats.skipped + 1 }
    (stats, { st with store := st.store.set_last_synced_id source_chat target_chat msg.id })

/-- The `while True:` pagination loop.  `fuel` is a modelling device only:
`backfill` passes `100002`, which the `offset > 100000` safety check (for
`batch_size ≥ 1`) or an empty batch (for `batch_size = 0`) always reaches
first, so the fuel never runs out. -/
def backfill_loop (env : Env) (source_chat target_chat : Int) (last_synced : Int)
    (batch_size : Nat) :
    Nat → Nat → BackfillStats × CState → BackfillStats × CState
  | 0, _, acc => acc
  | fuel + 1, offset, acc =>
    let batch :=
      (env.chat_history batch_size offset).takeWhile (fun m => decide (last_synced < m.id))
    if batch.isEmpty then acc
    else
      let batch := sortById batch
      let acc := batch.foldl (fun a m => backfill_item env source_chat target_chat m a) acc
      let offset := offset + batch_size
      if 100000 < offset then acc
      else backfill_loop env source_chat target_chat last_synced batch_size fuel offset acc

/-- `ReplicationManager.backfill`.  Progress callbacks, log lines and the
fixed 1.5 s pacing sleep have no state effect and are not tracked. -/
def backfill (env : Env) (source_chat target_chat : Int) (start_id : Option Int)
    (batch_size : Nat) (st : CState) : BackfillStats × CState :=
  let last_synced :=
    match start_id with
    | some sid => sid - 1
    | none => st.store.get_last_synced_id source_chat target_chat
  let res :=
    backfill_loop env source_chat target_chat last_synced batch_size 100002 0 ({}, st)
  -- `self._media_group_cache.clear()` before returning
  (res.1, { res.2 with media_group_cache := [] })

/-! ## Concrete scenarios

Small closed instances used to evaluate the engine on explicit inputs:
source channel `1`, target channel `2` (and `3`), and a platform that
acknowledges the `n`-th send with target-message id `1000 + n`. -/

/-- A platform script that accepts every send, returning distinct ids. -/
def scriptSent : Nat → SendOutcome := fun n => SendOutcome.sent (1000 + (n : Int))

/-- A plain text message of channel 1. -/
def textMsg (i : Int) : MMessage := { id := i, chat_id := 1, text := "hello" }

/-- A service message (e.g. a pin notification) of channel 1. -/
def serviceMsg : MMessage := { id := 5, chat_id := 1, service := true }

/-- Channel 1 holding text messages 1, 2, 3. -/
def envThree : Env := { channel := [textMsg 1, textMsg 2, textMsg 3], script := scriptSent }

/-- Engine state whose stored cursor for the pair (1, 2) is 3. -/
def cursorThree : CState := { store := { sync_state := [((1, 2), 3)] } }

/-- Channel 1 holding only text message 5. -/
def envOne5 : Env := { channel := [textMsg 5], script := scriptSent }

/-- Engine state whose stored cursor for the pair (1, 2) is 10. -/
def cursorTen : CState := { store := { sync_state := [((1, 2), 10)] } }

/-- Member `i` of a 3-item photo album with group id 7 in channel 1. -/
def albumMsg (i : Int) : MMessage :=
  { id := i, chat_id := 1, media_group_id := some 7, has_photo := true }

/-- Channel 1 holding the album 10, 11, 12; `copy_media_group` succeeds with
sent ids 100, 101, 102. -/
def envAlbum : Env :=
  { channel := [albumMsg 10, albumMsg 11, albumMsg 12],
    script := fun _ => SendOutcome.sentGroup [100, 101, 102] }

/-- Invoke `replicate` independently on each album member, in the given
order, starting from the empty state. -/
def albumRun (p : List MMessage) : CState :=
  p.foldl (fun st m => (replicate envAlbum 1 2 m st).2) cstate0

/-- All six orders in which the three album members can be observed. -/
def albumPerms : List (List MMessage) :=
  [[albumMsg 10, albumMsg 11, albumMsg 12], [albumMsg 10, albumMsg 12, albumMsg 11],
   [albumMsg 11, albumMsg 10, albumMsg 12], [albumMsg 11, albumMsg 12, albumMsg 10],
   [albumMsg 12, albumMsg 10, albumMsg 11], [albumMsg 12, albumMsg 11, albumMsg 10]]

/-- A platform that always answers with `FloodWait 10`. -/
def envFlood : Env := { channel := [], script := fun _ => SendOutcome.floodWait 10 }

/-- Two enabled mapping rules fanning channel 1 out to channels 2 and 3,
with replication globally enabled. -/
def cfgFan : Config :=
  { replication_enabled := true,
    replication_mappings := [⟨1, 2, true⟩, ⟨1, 3, true⟩] }

/-- A platform whose first send raises a generic error and whose later sends
succeed: used to observe that a failure on one target does not stop the
listener's fan-out. -/
def envMix : Env :=
  { channel := [],
    script := fun n => if n = 0 then SendOutcome.exn false else SendOutcome.sent 77 }

/-- The state `replicate envThree 1 2 (textMsg 2) cstate0` ends in. -/
def oneCloneState : CState :=
  { store := { message_map := [((1, 2, 2), 1000)] },
    attempts := 1,
    sends := [⟨SendKind.text, 2, 1, 2, none⟩] }

/-! ## Association-list lemmas -/

theorem alist_get_put_same {K : Type} [DecidableEq K] (l : List (K × Int)) (k : K) (v : Int) :
    alist_get (alist_put l k v) k = some v := by
  simp [alist_put, alist_get]

theorem alist_get_erase_other {K : Type} [DecidableEq K] (l : List (K × Int)) {k k' : K}
    (h : k' ≠ k) : alist_get (alist_erase l k) k' = alist_get l k' := by
  induction l with
  | nil => rfl
  | cons a l ih =>
      obtain ⟨ka, va⟩ := a
      by_cases hk : ka = k
      · subst hk
        simp [alist_erase, alist_get, Ne.symm h, ih]
      · simp only [alist_erase, if_neg hk, alist_get]
        by_cases hk' : ka = k'
        · simp [hk']
        · simp [hk', ih]

theorem alist_get_put_other {K : Type} [DecidableEq K] (l : List (K × Int)) {k k' : K}
    (v : Int) (h : k' ≠ k) : alist_get (alist_put l k v) k' = alist_get l k' := by
  simp [alist_put, alist_get, Ne.symm h, alist_get_erase_other l h]

theorem alist_erase_key_not_mem {K : Type} [DecidableEq K] (l : List (K × Int)) (k : K) :
    k ∉ (alist_erase l k).map Prod.fst := by
  induction l with
  | nil => simp [alist_erase]
  | cons a l ih =>
      obtain ⟨ka, va⟩ := a
      by_cases hk : ka = k
      · simpa [alist_erase, hk] using ih
      · simpa [alist_erase, hk, Ne.symm hk] using ih

theorem alist_wf_erase {K : Type} [DecidableEq K] {l : List (K × Int)} (k : K)
    (h : alist_wf l) : alist_wf (alist_erase l k) := by
  induction l with
  | nil => simpa [alist_erase] using h
  | cons a l ih =>
      obtain ⟨ka, va⟩ := a
      simp only [alist_wf, List.map_cons, List.nodup_cons] at h
      by_cases hk : ka = k
      · simpa [alist_erase, hk] using ih h.2
      · have ihh := ih h.2
        simp only [alist_erase, if_neg hk, alist_wf, List.map_cons, List.nodup_cons]
        refine ⟨fun hmem => h.1 ?_, ihh⟩
        -- membership in erased keys implies membership in original keys
        clear ihh ih h
        induction l with
        | nil => simp [alist_erase] at hmem
        | cons b l ih2 =>
            obtain ⟨kb, vb⟩ := b
            by_cases hkb : kb = k
            · simp only [alist_erase, if_pos hkb] at hmem
              exact List.mem_cons_of_mem _ (ih2 hmem)
            · simp only [alist_erase, if_neg hkb, List.map_cons, List.mem_cons] at hmem
              rcases hmem with h1 | h1
              · simp [h1]
              · exact List.mem_cons_of_mem _ (ih2 h1)

theorem alist_wf_put {K : Type} [DecidableEq K] {l : List (K × Int)} (k : K) (v : Int)
    (h : alist_wf l) : alist_wf (alist_put l k v) := by
  simp only [alist_put, alist_wf, List.map_cons, List.nodup_cons]
  exact ⟨alist_erase_key_not_mem l k, alist_wf_erase k h⟩

theorem alist_count_eq_zero {K : Type} [DecidableEq K] {l : List (K × Int)} {k : K}
    (h : k ∉ l.map Prod.fst) : alist_count l k = 0 := by
  induction l with
  | nil => rfl
  | cons a l ih =>
      obtain ⟨ka, va⟩ := a
      simp only [List.map_cons, List.mem_cons] at h
      push_neg at h
      simp [alist_count, Ne.symm h.1, ih h.2]

theorem alist_count_eq_one {K : Type} [DecidableEq K] {l : List (K × Int)} {k : K} {v : Int}
    (hwf : alist_wf l) (h : alist_get l k = some v) : alist_count l k = 1 := by
  induction l with
  | nil => simp [alist_get] at h
  | cons a l ih =>
      obtain ⟨ka, va⟩ := a
      simp only [alist_wf, List.map_cons, List.nodup_cons] at hwf
      by_cases hk : ka = k
      · subst hk
        simp [alist_count, alist_count_eq_zero hwf.1]
      · simp only [alist_get, if_neg hk] at h
        simp [alist_count, hk, ih hwf.2 h]

/-! ## Sorting lemmas -/

theorem insertById_perm (m : MMessage) (l : List MMessage) :
    List.Perm (insertById m l) (m :: l) := by
  induction l with
  | nil => rfl
  | cons x xs ih =>
      by_cases h : m.id < x.id
      · simp [insertById, h]
      · simp only [insertById, if_neg h]
        exact (ih.cons x).trans (List.Perm.swap m x xs)

theorem sortById_perm (l : List MMessage) : List.Perm (sortById l) l := by
  induction l with
  | nil => rfl
  | cons x xs ih => exact (insertById_perm x (sortById xs)).trans (ih.cons x)

theorem pairwise_insertById {l : List MMessage} (m : MMessage)
    (h : l.Pairwise (fun a b => a.id ≤ b.id)) :
    (insertById m l).Pairwise (fun a b => a.id ≤ b.id) := by
  induction l with
  | nil => simp [insertById]
  | cons x xs ih =>
      rw [List.pairwise_cons] at h
      by_cases hlt : m.id < x.id
      · simp only [insertById, if_pos hlt]
        refine List.Pairwise.cons ?_ (List.pairwise_cons.mpr h)
        intro b hb
        rcases List.mem_cons.mp hb with rfl | hb
        · exact le_of_lt hlt
        · exact le_trans (le_of_lt hlt) (h.1 b hb)
      · simp only [insertById, if_neg hlt]
        refine List.Pairwise.cons ?_ (ih h.2)
        intro b hb
        rcases List.mem_cons.mp ((insertById_perm m xs).mem_iff.mp hb) with rfl | hb2
        · exact Int.not_lt.mp hlt
        · exact h.1 b hb2

theorem sortById_pairwise (l : List MMessage) :
    (sortById l).Pairwise (fun a b => a.id ≤ b.id) := by
  induction l with
  | nil => simp [sortById]
  | cons x xs ih => exact pairwise_insertById x ih

theorem minById_of_lb {l : List MMessage} {m : MMessage}
    (h : ∀ x ∈ l, m.id ≤ x.id) : minById m l = m := by
  induction l with
  | nil => rfl
  | cons x xs ih =>
      have hx : m.id ≤ x.id := h x (by simp)
      simp only [minById, if_neg (Int.not_lt.mpr hx)]
      exact ih fun y hy => h y (List.mem_cons_of_mem x hy)

/-! ## Store frame and update lemmas -/

theorem set_mapping_sync (st : Store) (a b c d : Int) :
    (st.set_mapping a b c d).sync_state = st.sync_state := rfl

theorem set_last_synced_map (st : Store) (a b c : Int) :
    (st.set_last_synced_id a b c).message_map = st.message_map := rfl

theorem set_mapping_wf {st : Store} (a b c d : Int) (h : st.WF) :
    (st.set_mapping a b c d).WF := alist_wf_put _ _ h

theorem set_last_synced_wf {st : Store} (a b c : Int) (h : st.WF) :
    (st.set_last_synced_id a b c).WF := h

theorem get_set_mapping_same (st : Store) (a b c d : Int) :
    (st.set_mapping a b c d).get_target_msg_id a b c = some d :=
  alist_get_put_same _ _ _

theorem get_set_mapping_other {st : Store} {a b c a' b' c' : Int} (d : Int)
    (h : (a', b', c') ≠ (a, b, c)) :
    (st.set_mapping a b c d).get_target_msg_id a' b' c' = st.get_target_msg_id a' b' c' :=
  alist_get_put_other _ _ h

theorem get_last_set_same (st : Store) (a b c : Int) :
    (st.set_last_synced_id a b c).get_last_synced_id a b = c := by
  simp [Store.set_last_synced_id, Store.get_last_synced_id, alist_get_put_same]

theorem get_last_set_other {st : Store} {a b a' b' : Int} (c : Int)
    (h : (a', b') ≠ (a, b)) :
    (st.set_last_synced_id a b c).get_last_synced_id a' b' = st.get_last_synced_id a' b' := by
  simp [Store.set_last_synced_id, Store.get_last_synced_id, alist_get_put_other _ _ h]

theorem rowCount_eq_one {st : Store} {a b c v : Int} (hwf : st.WF)
    (h : st.get_target_msg_id a b c = some v) : st.rowCount a b c = 1 :=
  alist_count_eq_one hwf h

/-! ## Lemmas about the transcription engine -/

theorem zip_set_mappings_sync (s t : Int) :
    ∀ (ms : List MMessage) (ts : List Int) (st : Store),
      (zip_set_mappings s t st ms ts).sync_state = st.sync_state := by
  intro ms
  induction ms with
  | nil => intro ts st; cases ts <;> rfl
  | cons m ms ih =>
      intro ts st
      cases ts with
      | nil => rfl
      | cons t' ts => simp [zip_set_mappings, ih, set_mapping_sync]

theorem zip_set_mappings_wf (s t : Int) :
    ∀ (ms : List MMessage) (ts : List Int) {st : Store}, st.WF →
      (zip_set_mappings s t st ms ts).WF := by
  intro ms
  induction ms with
  | nil => intro ts st h; cases ts <;> exact h
  | cons m ms ih =>
      intro ts st h
      cases ts with
      | nil => exact h
      | cons t' ts =>
          simp only [zip_set_mappings]
          exact ih ts (set_mapping_wf _ _ _ _ h)

theorem zip_get_preserved (s t mid : Int) :
    ∀ (ms : List MMessage) (ts : List Int) (st : Store), mid ∉ ms.map (·.id) →
      (zip_set_mappings s t st ms ts).get_target_msg_id s mid t =
        st.get_target_msg_id s mid t := by
  intro ms
  induction ms with
  | nil => intro ts st _; cases ts <;> rfl
  | cons m ms ih =>
      intro ts st h
      simp only [List.map_cons, List.mem_cons] at h
      push_neg at h
      cases ts with
      | nil => rfl
      | cons t' ts =>
          simp only [zip_set_mappings]
          rw [ih ts _ h.2]
          refine get_set_mapping_other _ ?_
          simp only [ne_eq, Prod.mk.injEq, not_and]
          intro _ hmm
          exact absurd hmm h.1

theorem zip_get_head (s t : Int) (m0 : MMessage) (ms : List MMessage) (i0 : Int)
    (ts : List Int) (st : Store) (h : m0.id ∉ ms.map (·.id)) :
    (zip_set_mappings s t st (m0 :: ms) (i0 :: ts)).get_target_msg_id s m0.id t = some i0 := by
  simp only [zip_set_mappings]
  rw [zip_get_preserved s t m0.id ms ts _ h]
  exact get_set_mapping_same _ _ _ _ _

theorem singular_send_store (env : Env) (s t : Int) (m : MMessage) (r : Option Int)
    (st : CState) : (singular_send env s t m r st).2.store = st.store := by
  unfold singular_send
  cases h : singular_kind m with
  | none => rfl
  | some kb => obtain ⟨k, sw⟩ := kb; rfl

theorem singular_fb_store (env : Env) (s t : Int) (m : MMessage) (r : Option Int)
    (st : CState) : (singular_send_with_fallback env s t m r st).2.store = st.store := by
  unfold singular_send_with_fallback
  have hs := singular_send_store env s t m r st
  cases h : singular_send env s t m r st with
  | mk flow st2 =>
      rw [h] at hs
      cases flow with
      | done o =>
          cases o with
          | none => simpa [CState.platform_send] using hs
          | some i => exact hs
      | flood v => exact hs
      | raised b => exact hs

theorem get_media_group_nodup {env : Env} (henv : env.WF) (gid : Int) :
    ((env.get_media_group gid).map (·.id)).Nodup := by
  have h1 : ((env.channel.filter (fun m => m.media_group_id == some gid)).map (·.id)).Sublist
      (env.channel.map (·.id)) := (List.filter_sublist _).map _
  have h2 := henv.sublist h1
  have h3 : List.Perm
      ((sortById (env.channel.filter (fun m => m.media_group_id == some gid))).map (·.id))
      ((env.channel.filter (fun m => m.media_group_id == some gid)).map (·.id)) :=
    (sortById_perm _).map _
  exact h3.nodup_iff.mpr h2

/-- Exit of the media-group branch through `return None` (cache hit or
non-lowest member): the state is untouched. -/
theorem media_group_section_none_exit {env : Env} {s t : Int} {m : MMessage} {gid : Int}
    {r : Option Int} {st st2 : CState}
    (h : media_group_section env s t m gid r st = (some none, st2)) : st2 = st := by
  by_cases hc : (s, gid, t) ∈ st.media_group_cache
  · simp only [media_group_section, if_pos hc, Prod.mk.injEq] at h
    exact h.2.symm
  · simp only [media_group_section, if_neg hc, CState.platform_send] at h
    split at h
    · simp at h
    · split at h
      · split at h
        · simp at h
        · simp at h
      · simp only [Prod.mk.injEq] at h
        exact h.2.symm

/-- Exit of the media-group branch with a fall-through to the singular
sends: the store is untouched (only cache/attempt bookkeeping changed). -/
theorem media_group_section_fall {env : Env} {s t : Int} {m : MMessage} {gid : Int}
    {r : Option Int} {st st2 : CState}
    (h : media_group_section env s t m gid r st = (none, st2)) : st2.store = st.store := by
  by_cases hc : (s, gid, t) ∈ st.media_group_cache
  · simp only [media_group_section, if_pos hc] at h
    simp at h
  · simp only [media_group_section, if_neg hc, CState.platform_send] at h
    split at h
    · simp only [Prod.mk.injEq] at h
      rw [← h.2]
    · split at h
      · split at h
        · simp at h
        · simp only [Prod.mk.injEq] at h
          rw [← h.2]
      · simp at h

/-- Exit of the media-group branch through a successful
`copy_media_group`: the album is mapped member-by-member; in particular the
triggering (lowest-id) member maps to the first sent item, which is also the
returned id. -/
theorem media_group_section_some {env : Env} {s t : Int} {m : MMessage} {gid : Int}
    {r : Option Int} {st st2 : CState} {i0 : Int}
    (h : media_group_section env s t m gid r st = (some (some i0), st2)) :
    st2.store.sync_state = st.store.sync_state ∧
    (st.store.WF → st2.store.WF) ∧
    (env.WF → st2.store.get_target_msg_id s m.id t = some i0) := by
  by_cases hc : (s, gid, t) ∈ st.media_group_cache
  · simp only [media_group_section, if_pos hc] at h
    simp at h
  · simp only [media_group_section, if_neg hc, CState.platform_send] at h
    split at h
    · simp at h
    · rename_i m0 rest heq
      split at h
      · rename_i hid
        split at h
        · rename_i i0' irest ho
          simp only [Prod.mk.injEq, Option.some.injEq] at h
          obtain ⟨hi, hst⟩ := h
          subst hi
          subst hst
          refine ⟨by simp [zip_set_mappings_sync], fun hwf => zip_set_mappings_wf _ _ _ _ hwf, ?_⟩
          intro henv
          have hsorted : (env.get_media_group gid).Pairwise (fun a b => a.id ≤ b.id) :=
            sortById_pairwise _
          have hnodup := get_media_group_nodup henv gid
          rw [heq] at hsorted hnodup
          rw [List.pairwise_cons] at hsorted
          have hmin : minById m0 rest = m0 := minById_of_lb hsorted.1
          rw [hmin] at hid
          simp only [List.map_cons, List.nodup_cons] at hnodup
          rw [hid]
          exact zip_get_head s t m0 rest _ irest st.store hnodup.1
        · simp at h
      · simp at h

/-- Facts about a non-FloodWait exit of one `_copy_message` attempt: the
cursor table is untouched, the primary-key invariant is preserved, and a
`some v` result means the mapping row for this message reads back `v`. -/
theorem singular_section_inl {env : Env} {s t : Int} {m : MMessage} {reply : Option Int}
    {st st' : CState} {r : Option Int}
    (h : singular_section env s t m reply st = Sum.inl (r, st')) :
    st'.store.sync_state = st.store.sync_state ∧
    (st.store.WF → st'.store.WF) ∧
    (∀ v, r = some v → st'.store.get_target_msg_id s m.id t = some v) := by
  unfold singular_section at h
  split at h
  · -- done (some sent_id)
    rename_i st3 hsf
    have hst3 : st3.store = st.store := by
      have hfs := singular_fb_store env s t m reply st
      rw [hsf] at hfs
      exact hfs
    split at h
    · simp only [Sum.inl.injEq, Prod.mk.injEq] at h
      obtain ⟨hr, hst⟩ := h
      subst hst
      refine ⟨by simp [set_mapping_sync, hst3], ?_, ?_⟩
      · intro hw
        have hw3 : st3.store.WF := by rw [hst3]; exact hw
        exact set_mapping_wf _ _ _ _ hw3
      · intro v hv
        rw [← hr] at hv
        cases hv
        exact get_set_mapping_same _ _ _ _ _
    · simp only [Sum.inl.injEq, Prod.mk.injEq] at h
      obtain ⟨hr, hst⟩ := h
      subst hst
      exact ⟨by rw [hst3], fun hw => by rw [hst3]; exact hw,
        fun v hv => by rw [← hr] at hv; cases hv⟩
  · -- done none
    rename_i st3 hsf
    have hst3 : st3.store = st.store := by
      have hfs := singular_fb_store env s t m reply st
      rw [hsf] at hfs
      exact hfs
    simp only [Sum.inl.injEq, Prod.mk.injEq] at h
    obtain ⟨hr, hst⟩ := h
    subst hst
    exact ⟨by rw [hst3], fun hw => by rw [hst3]; exact hw,
      fun v hv => by rw [← hr] at hv; cases hv⟩
  · -- flood: not an inl exit
    cases h
  · -- raised true: bypass
    rename_i st3 hsf
    have hst3 : st3.store = st.store := by
      have hfs := singular_fb_store env s t m reply st
      rw [hsf] at hfs
      exact hfs
    simp only [CState.platform_send] at h
    split at h
    · split at h
      · simp only [Sum.inl.injEq, Prod.mk.injEq] at h
        obtain ⟨hr, hst⟩ := h
        subst hst
        refine ⟨by simp [set_mapping_sync, hst3], ?_, ?_⟩
        · intro hw
          have hw3 : st3.store.WF := by rw [hst3]; exact hw
          exact set_mapping_wf _ _ _ _ hw3
        · intro v hv
          rw [← hr] at hv
          cases hv
          exact get_set_mapping_same _ _ _ _ _
      · simp only [Sum.inl.injEq, Prod.mk.injEq] at h
        obtain ⟨hr, hst⟩ := h
        subst hst
        exact ⟨by rw [hst3], fun hw => by rw [hst3]; exact hw,
          fun v hv => by rw [← hr] at hv; cases hv⟩
    · simp only [Sum.inl.injEq, Prod.mk.injEq] at h
      obtain ⟨hr, hst⟩ := h
      subst hst
      exact ⟨by rw [hst3], fun hw => by rw [hst3]; exact hw,
        fun v hv => by rw [← hr] at hv; cases hv⟩
  · -- raised false
    rename_i st3 hsf
    have hst3 : st3.store = st.store := by
      have hfs := singular_fb_store env s t m reply st
      rw [hsf] at hfs
      exact hfs
    simp only [Sum.inl.injEq, Prod.mk.injEq] at h
    obtain ⟨hr, hst⟩ := h
    subst hst
    exact ⟨by rw [hst3], fun hw => by rw [hst3]; exact hw,
      fun v hv => by rw [← hr] at hv; cases hv⟩

theorem singular_section_inr {env : Env} {s t : Int} {m : MMessage} {reply : Option Int}
    {st st' : CState} {v : Nat}
    (h : singular_section env s t m reply st = Sum.inr (v, st')) :
    st'.store = st.store := by
  unfold singular_section at h
  split at h
  · split at h <;> cases h
  · cases h
  · rename_i st3 hsf
    have hst3 : st3.store = st.store := by
      have hfs := singular_fb_store env s t m reply st
      rw [hsf] at hfs
      exact hfs
    simp only [Sum.inr.injEq, Prod.mk.injEq] at h
    obtain ⟨_, hst⟩ := h
    subst hst
    exact hst3
  · simp only [CState.platform_send] at h
    split at h
    · split at h <;> cases h
    · cases h
  · cases h

/-- Facts about a non-FloodWait exit of one `_copy_message` attempt: the
cursor table is untouched, the primary-key invariant is preserved, and a
`some v` result means the mapping row for this message reads back `v`. -/
theorem copy_attempt_inl {env : Env} {s t : Int} {m : MMessage} {st st' : CState}
    {r : Option Int} (h : copy_attempt env s t m st = Sum.inl (r, st')) :
    st'.store.sync_state = st.store.sync_state ∧
    (st.store.WF → st'.store.WF) ∧
    (∀ v, r = some v → env.WF → st'.store.get_target_msg_id s m.id t = some v) := by
  unfold copy_attempt at h
  split at h
  · -- service message
    simp only [Sum.inl.injEq, Prod.mk.injEq] at h
    obtain ⟨hr, hst⟩ := h
    subst hst
    exact ⟨rfl, fun hw => hw, fun v hv _ => by rw [← hr] at hv; cases hv⟩
  · split at h
    · -- already cloned
      simp only [Sum.inl.injEq, Prod.mk.injEq] at h
      obtain ⟨hr, hst⟩ := h
      subst hst
      exact ⟨rfl, fun hw => hw, fun v hv _ => by rw [← hr] at hv; exact hv⟩
    · -- main path: first split on `message.media_group_id`
      split at h
      · -- a media group id is present
        rename_i gid hmgi
        dsimp only [] at h
        -- now split on the result of the media-group branch
        split at h
        · -- it returned from the function
          rename_i mres st2 heqmg
          simp only [Sum.inl.injEq, Prod.mk.injEq] at h
          obtain ⟨hr, hst⟩ := h
          subst hst
          subst hr
          rcases mres with _ | i0
          · have h2 := media_group_section_none_exit heqmg
            subst h2
            exact ⟨rfl, fun hw => hw, fun v hv => by cases hv⟩
          · have hfacts := media_group_section_some heqmg
            exact ⟨hfacts.1, hfacts.2.1, fun v hv henv => by
              cases hv; exact hfacts.2.2 henv⟩
        · -- it fell through to the singular sends
          rename_i st2 heqmg
          have hst2 : st2.store = st.store := media_group_section_fall heqmg
          have hsec := singular_section_inl h
          exact ⟨by rw [hsec.1, hst2], fun hw => hsec.2.1 (by rw [hst2]; exact hw),
            fun v hv _ => hsec.2.2 v hv⟩
      · -- no media group
        dsimp only [] at h
        have hsec := singular_section_inl h
        exact ⟨hsec.1, hsec.2.1, fun v hv _ => hsec.2.2 v hv⟩

/-- A FloodWait exit of one attempt leaves the store untouched. -/
theorem copy_attempt_inr {env : Env} {s t : Int} {m : MMessage} {st st' : CState}
    {v : Nat} (h : copy_attempt env s t m st = Sum.inr (v, st')) :
    st'.store = st.store := by
  unfold copy_attempt at h
  split at h
  · cases h
  · split at h
    · cases h
    · split at h
      · -- a media group id is present
        dsimp only [] at h
        split at h
        · cases h
        · rename_i st2 heqmg
          have hst2 : st2.store = st.store := media_group_section_fall heqmg
          rw [singular_section_inr h, hst2]
      · -- no media group
        dsimp only [] at h
        exact singular_section_inr h

/-- `_copy_message` never touches the `sync_state` (cursor) table. -/
theorem copy_message_sync (env : Env) (s t : Int) (m : MMessage) :
    ∀ (rl : Nat) (st : CState),
      ((copy_message env s t m rl st).2).store.sync_state = st.store.sync_state := by
  intro rl
  induction rl with
  | zero =>
      intro st
      rw [copy_message]
      cases ha : copy_attempt env s t m st with
      | inl r =>
          obtain ⟨ro, st2⟩ := r
          simpa using (copy_attempt_inl ha).1
      | inr p =>
          obtain ⟨v, st2⟩ := p
          simpa using congrArg Store.sync_state (copy_attempt_inr ha)
  | succ k ih =>
      intro st
      rw [copy_message]
      cases ha : copy_attempt env s t m st with
      | inl r =>
          obtain ⟨ro, st2⟩ := r
          simpa using (copy_attempt_inl ha).1
      | inr p =>
          obtain ⟨v, st2⟩ := p
          have hih := ih { st2 with slept := st2.slept + (v + 1) }
          simp only []
          rw [hih]
          simpa using congrArg Store.sync_state (copy_attempt_inr ha)

/-- When `_copy_message` returns a target id, the mapping row for the
message reads back exactly that id, and the primary-key invariant is kept. -/
theorem copy_message_some {env : Env} {s t : Int} {m : MMessage} (henv : env.WF) :
    ∀ (rl : Nat) (st : CState) (v : Int) (st' : CState), st.store.WF →
      copy_message env s t m rl st = (some v, st') →
      st'.store.get_target_msg_id s m.id t = some v ∧ st'.store.WF := by
  intro rl
  induction rl with
  | zero =>
      intro st v st' hwf h
      rw [copy_message] at h
      cases ha : copy_attempt env s t m st with
      | inl r =>
          obtain ⟨ro, st2⟩ := r
          rw [ha] at h
          simp only [Prod.mk.injEq] at h
          obtain ⟨hro, hst⟩ := h
          subst hst
          exact ⟨(copy_attempt_inl ha).2.2 v hro henv, (copy_attempt_inl ha).2.1 hwf⟩
      | inr p =>
          obtain ⟨w, st2⟩ := p
          rw [ha] at h
          simp at h
  | succ k ih =>
      intro st v st' hwf h
      rw [copy_message] at h
      cases ha : copy_attempt env s t m st with
      | inl r =>
          obtain ⟨ro, st2⟩ := r
          rw [ha] at h
          simp only [Prod.mk.injEq] at h
          obtain ⟨hro, hst⟩ := h
          subst hst
          exact ⟨(copy_attempt_inl ha).2.2 v hro henv, (copy_attempt_inl ha).2.1 hwf⟩
      | inr p =>
          obtain ⟨w, st2⟩ := p
          rw [ha] at h
          simp only [] at h
          have hwf2 : ({ st2 with slept := st2.slept + (w + 1) } : CState).store.WF := by
            have := copy_attempt_inr ha
            simp only [this]
            exact hwf
          exact ih _ v st' hwf2 h

/-- A service message is skipped without any state change. -/
theorem copy_message_service {env : Env} {s t : Int} {m : MMessage}
    (hs : m.service = true) (rl : Nat) (st : CState) :
    copy_message env s t m rl st = (none, st) := by
  cases rl <;> · rw [copy_message]; simp [copy_attempt, hs]

/-- An already-mapped message short-circuits on the idempotence check,
returning the stored target id without any state change. -/
theorem copy_message_cloned {env : Env} {s t : Int} {m : MMessage}
    (hs : m.service = false) {st : CState}
    (hc : st.store.is_cloned s m.id t = true) (rl : Nat) :
    copy_message env s t m rl st = (st.store.get_target_msg_id s m.id t, st) := by
  cases rl <;> · rw [copy_message]; simp [copy_attempt, hs, hc]

/-- `get_last_synced_id` depends only on the cursor table. -/
theorem get_last_synced_congr {s1 s2 : Store} (h : s1.sync_state = s2.sync_state)
    (a b : Int) : s1.get_last_synced_id a b = s2.get_last_synced_id a b := by
  simp [Store.get_last_synced_id, h]

/-- Once a target's cursor holds `m.id`, the rest of the listener fan-out
keeps it there (later iterations write the same value or other keys, and
`replicate` never touches the cursor table). -/
theorem listener_fold_keeps (env : Env) (src : Int) (m : MMessage) :
    ∀ (ts : List Int) (st : CState) (t0 : Int),
      st.store.get_last_synced_id src t0 = m.id →
      ((ts.foldl
        (fun st target_chat =>
          let (_, st) := replicate env src target_chat m st
          { st with store := st.store.set_last_synced_id src target_chat m.id }) st).store.get_last_synced_id
        src t0) = m.id := by
  intro ts
  induction ts with
  | nil => intro st t0 h; simpa using h
  | cons tc ts ih =>
      intro st t0 h
      simp only [List.foldl_cons]
      refine ih _ t0 ?_
      cases hrep : replicate env src tc m st with
      | mk res st2 =>
          simp only [hrep]
          by_cases hk : ((src, t0) : Int × Int) = (src, tc)
          · have htt : t0 = tc := by
              simpa using hk
            subst htt
            exact get_last_set_same _ _ _ _
          · rw [get_last_set_other _ hk]
            have hsync : (replicate env src tc m st).2.store.sync_state = st.store.sync_state :=
              copy_message_sync env src tc m 3 st
            rw [hrep] at hsync
            rw [get_last_synced_congr hsync]
            exact h

/-- After the listener fan-out, every processed target's cursor is `m.id`. -/
theorem listener_fold_all (env : Env) (src : Int) (m : MMessage) :
    ∀ (ts : List Int) (st : CState), ∀ t0 ∈ ts,
      ((ts.foldl
        (fun st target_chat =>
          let (_, st) := replicate env src target_chat m st
          { st with store := st.store.set_last_synced_id src target_chat m.id }) st).store.get_last_synced_id
        src t0) = m.id := by
  intro ts
  induction ts with
  | nil => intro st t0 h; simp at h
  | cons tc ts ih =>
      intro st t0 ht0
      rcases List.mem_cons.mp ht0 with rfl | hmem
      · simp only [List.foldl_cons]
        refine listener_fold_keeps env src m ts _ t0 ?_
        cases hrep : replicate env src t0 m st with
        | mk res st2 =>
            simp only [hrep]
            exact get_last_set_same _ _ _ _
      · simp only [List.foldl_cons]
        exact ih _ t0 hmem

/-- One backfill item keeps the counter partition invariant: it adds 1 to
`processed` and 1 to exactly one of `cloned`, `skipped`, `failed`. -/
theorem backfill_item_partition (env : Env) (s t : Int) (m : MMessage)
    (acc : BackfillStats × CState)
    (h : acc.1.processed = acc.1.cloned + acc.1.skipped + acc.1.failed) :
    (backfill_item env s t m acc).1.processed =
      (backfill_item env s t m acc).1.cloned + (backfill_item env s t m acc).1.skipped +
        (backfill_item env s t m acc).1.failed := by
  obtain ⟨stats, cst⟩ := acc
  dsimp only at h
  simp only [backfill_item]
  split
  · simp only []
    omega
  · cases hrep : replicate env s t m cst with
    | mk res st2 =>
        simp only [hrep]
        cases res <;> · simp only []; omega

theorem backfill_fold_partition (env : Env) (s t : Int) :
    ∀ (batch : List MMessage) (acc : BackfillStats × CState),
      acc.1.processed = acc.1.cloned + acc.1.skipped + acc.1.failed →
      (batch.foldl (fun a m => backfill_item env s t m a) acc).1.processed =
        (batch.foldl (fun a m => backfill_item env s t m a) acc).1.cloned +
          (batch.foldl (fun a m => backfill_item env s t m a) acc).1.skipped +
          (batch.foldl (fun a m => backfill_item env s t m a) acc).1.failed := by
  intro batch
  induction batch with
  | nil => intro acc h; simpa using h
  | cons m batch ih =>
      intro acc h
      simp only [List.foldl_cons]
      exact ih _ (backfill_item_partition env s t m acc h)

theorem backfill_loop_partition (env : Env) (s t : Int) (ls : Int) (bs : Nat) :
    ∀ (fuel offset : Nat) (acc : BackfillStats × CState),
      acc.1.processed = acc.1.cloned + acc.1.skipped + acc.1.failed →
      (backfill_loop env s t ls bs fuel offset acc).1.processed =
        (backfill_loop env s t ls bs fuel offset acc).1.cloned +
          (backfill_loop env s t ls bs fuel offset acc).1.skipped +
          (backfill_loop env s t ls bs fuel offset acc).1.failed := by
  intro fuel
  induction fuel with
  | zero => intro offset acc h; simpa [backfill_loop] using h
  | succ k ih =>
      intro offset acc h
      rw [backfill_loop]
      split
      · exact h
      · dsimp only
        split
        · exact backfill_fold_partition env s t _ acc h
        · exact ih _ _ (backfill_fold_partition env s t _ acc h)

/-- One backfill item only appends its own id to the examined trace. -/
theorem backfill_item_examined (env : Env) (s t : Int) (m : MMessage)
    (acc : BackfillStats × CState) :
    ∀ i ∈ (backfill_item env s t m acc).1.examined, i ∈ acc.1.examined ∨ i = m.id := by
  obtain ⟨stats, cst⟩ := acc
  intro i hi
  simp only [backfill_item] at hi
  split at hi
  · simp only [List.mem_append, List.mem_singleton] at hi
    simpa using hi
  · cases hrep : replicate env s t m cst with
    | mk res st2 =>
        rw [hrep] at hi
        cases res <;>
        · simp only [List.mem_append, List.mem_singleton] at hi
          simpa using hi

theorem backfill_fold_examined (env : Env) (s t : Int) (P : Int → Prop) :
    ∀ (batch : List MMessage) (acc : BackfillStats × CState),
      (∀ m ∈ batch, P m.id) → (∀ i ∈ acc.1.examined, P i) →
      ∀ i ∈ (batch.foldl (fun a m => backfill_item env s t m a) acc).1.examined, P i := by
  intro batch
  induction batch with
  | nil => intro acc _ hacc i hi; exact hacc i hi
  | cons m batch ih =>
      intro acc hb hacc i hi
      simp only [List.foldl_cons] at hi
      refine ih _ (fun x hx => hb x (List.mem_cons_of_mem m hx)) ?_ i hi
      intro j hj
      rcases backfill_item_examined env s t m acc j hj with hj2 | hj2
      · exact hacc j hj2
      · rw [hj2]; exact hb m (by simp)

theorem backfill_loop_examined (env : Env) (s t : Int) (ls : Int) (bs : Nat) :
    ∀ (fuel offset : Nat) (acc : BackfillStats × CState),
      (∀ i ∈ acc.1.examined, ls < i) →
      ∀ i ∈ (backfill_loop env s t ls bs fuel offset acc).1.examined, ls < i := by
  intro fuel
  induction fuel with
  | zero => intro offset acc h; simpa [backfill_loop] using h
  | succ k ih =>
      intro offset acc h
      rw [backfill_loop]
      split
      · exact h
      · have hbatch : ∀ m ∈ sortById ((env.chat_history bs offset).takeWhile
            (fun m => decide (ls < m.id))), ls < m.id := by
          intro m hm
          have hm2 := (sortById_perm _).mem_iff.mp hm
          have := List.mem_takeWhile_imp hm2
          simpa using this
        dsimp only
        split
        · exact backfill_fold_examined env s t (fun i => ls < i) _ acc hbatch h
        · exact ih _ _ (backfill_fold_examined env s t (fun i => ls < i) _ acc hbatch h)

/-! ## Claim theorems -/

/-- A successful Python `int()` parse implies the `replace("-","").isdigit()`
guard of `_resolve_chat_id` holds. -/
theorem py_int_guard {l : List Char} {n : Int} (h : py_int_of_chars? l = some n) :
    py_is_digit_chars (strip_dashes_chars l) = true := by
  have hdash : Char.isDigit '-' = false := by decide
  cases l with
  | nil => simp [py_int_of_chars?] at h
  | cons c rest =>
      by_cases hc : c = '-'
      · subst hc
        by_cases hdig : py_is_digit_chars rest = true
        · have hall := (Bool.and_eq_true _ _).mp hdig
          have hfix : strip_dashes_chars ('-' :: rest) = rest := by
            simp only [strip_dashes_chars, List.filter_cons]
            rw [if_neg (by simp)]
            rw [List.filter_eq_self.mpr]
            intro x hx
            have hxd := List.all_eq_true.mp hall.2 x hx
            simp only [decide_eq_true_eq]
            intro hxe
            rw [hxe] at hxd
            rw [hdash] at hxd
            cases hxd
          rw [hfix]
          exact hdig
        · simp [py_int_of_chars?, hdig] at h
      · by_cases hdig : py_is_digit_chars (c :: rest) = true
        · have hall := (Bool.and_eq_true _ _).mp hdig
          have hfix : strip_dashes_chars (c :: rest) = c :: rest := by
            rw [strip_dashes_chars, List.filter_eq_self.mpr]
            intro x hx
            have hxd := List.all_eq_true.mp hall.2 x hx
            simp only [decide_eq_true_eq]
            intro hxe
            rw [hxe] at hxd
            rw [hdash] at hxd
            cases hxd
          rw [hfix]
          exact hdig
        · simp [py_int_of_chars?, hc, hdig] at h

/-- C8: the Identifier Normalizer is a total function that strips a leading
`@`, strips the protocol/host of a deep-link URL, and otherwise returns the
(trimmed) input string unchanged rather than failing or returning an absent
result; and the resolver parses a signed numeric id exactly when the
stripped remainder is all-digits-with-optional-leading-minus. -/
theorem c8_normalizer_total_cases (s : String) :
    (py_startswith ['@'] (py_strip_chars s.data) = true →
      normalize_identifier s = String.mk ((py_strip_chars s.data).drop 1)) ∧
    (py_startswith ['@'] (py_strip_chars s.data) = false →
      py_startswith "https://t.me/".data (py_strip_chars s.data) = true →
      normalize_identifier s =
        String.mk (after_last_slash_chars (rstrip_slash_chars (py_strip_chars s.data)))) ∧
    (py_startswith ['@'] (py_strip_chars s.data) = false →
      py_startswith "https://t.me/".data (py_strip_chars s.data) = false →
      normalize_identifier s = String.mk (py_strip_chars s.data)) ∧
    (∀ n : Int, resolve_chat_id_action (Sum.inl n) = ResolveAction.chat_id n) ∧
    (py_startswith "https://t.me/+".data (py_strip_chars s.data) = false →
      ∀ n : Int, py_int_of_chars? (resolve_remainder_chars s) = some n →
        resolve_chat_id_action (Sum.inr s) = ResolveAction.chat_id n) := by
  refine ⟨?_, ?_, ?_, fun n => rfl, ?_⟩
  · intro h1
    simp [normalize_identifier, h1]
  · intro h1 h2
    simp [normalize_identifier, h1, h2]
  · intro h1 h2
    simp [normalize_identifier, h1, h2]
  · intro hinv n hpy
    have hguard := py_int_guard hpy
    simp [resolve_chat_id_action, hinv, hguard, hpy]

/-- C8 witness: a handle with whitespace and a leading `@` normalizes to the
bare handle, and a signed numeric id string resolves numerically. -/
theorem c8_witness :
    normalize_identifier " @chan " = "chan" ∧
    resolve_chat_id_action (Sum.inr "-100123") = ResolveAction.chat_id (-100123) :=
  ⟨((c8_normalizer_total_cases " @chan ").1 (by decide)).trans (by decide),
   (c8_normalizer_total_cases "-100123").2.2.2.2 (by decide) (-100123) (by decide)⟩

/-- C9: the counters returned by one backfill invocation always partition
the examined items: `processed = cloned + skipped + failed` (all counters
are naturals, hence non-negative). -/
theorem c9_stats_partition (env : Env) (s t : Int) (sid : Option Int) (bs : Nat)
    (st : CState) :
    (backfill env s t sid bs st).1.processed =
      (backfill env s t sid bs st).1.cloned + (backfill env s t sid bs st).1.skipped +
        (backfill env s t sid bs st).1.failed := by
  cases sid with
  | none =>
      have hp := backfill_loop_partition env s t (st.store.get_last_synced_id s t) bs
        100002 0 (({} : BackfillStats), st) rfl
      dsimp only [backfill]
      exact hp
  | some sidv =>
      have hp := backfill_loop_partition env s t (sidv - 1) bs 100002 0
        (({} : BackfillStats), st) rfl
      dsimp only [backfill]
      exact hp

/-- C4 (amended): with an explicit `start_id` the scan bound is
`start_id - 1` alone -- every examined item has id strictly above it,
whatever the stored cursor says. -/
theorem c4_explicit_start_bound (env : Env) (s t sid : Int) (bs : Nat) (st : CState) :
    ∀ i ∈ (backfill env s t (some sid) bs st).1.examined, sid - 1 < i := by
  intro i hi
  dsimp only [backfill] at hi
  exact backfill_loop_examined env s t (sid - 1) bs 100002 0
    (({} : BackfillStats), st) (by intro j hj; simp at hj) i hi

/-- C4 witness: the bound theorem applied to the counterexample scenario. -/
theorem c4_witness : (3 : Int) - 1 < 5 :=
  c4_explicit_start_bound envOne5 1 2 3 100 cursorTen 5 (by decide)

/-- C4 counterexample: with cursor 10 and `start_id = 3`, message 5 (which
is at or below `max(start_id - 1, cursor) = 10`) is examined anyway -- the
code takes `start_id - 1` without the claimed `max` against the cursor. -/
theorem c4_counterexample :
    cursorTen.store.get_last_synced_id 1 2 = 10 ∧
    (backfill envOne5 1 2 (some 3) 100 cursorTen).1.examined = [5] ∧
    ¬ (max ((3 : Int) - 1) 10 < 5) := by decide

/-- C3: within one backfill invocation (batch size 2, channel ids 1..3,
explicit `start_id = 1`) the stored cursor for the pair moves backward from
3 to 1, because batches are visited newest-first while the cursor is set to
each processed item's id. -/
theorem c3_cursor_moves_backward :
    cursorThree.store.get_last_synced_id 1 2 = 3 ∧
    ((backfill envThree 1 2 (some 1) 2 cursorThree).2).store.get_last_synced_id 1 2 = 1 := by
  decide

/-- C5: with batch size 2 over channel ids 1..3 the processing order of one
backfill job is [2, 3, 1] -- ascending within each batch but not across the
job, because the offset pagination visits the newest batch first. -/
theorem c5_processing_order :
    (backfill envThree 1 2 none 2 cstate0).1.examined = [2, 3, 1] ∧
    ¬ ((backfill envThree 1 2 none 2 cstate0).1.examined).Pairwise (fun a b => a < b) := by
  have he : (backfill envThree 1 2 none 2 cstate0).1.examined = [2, 3, 1] := by decide
  refine ⟨he, ?_⟩
  rw [he]
  intro hp
  have h31 := (List.pairwise_cons.mp (List.pairwise_cons.mp hp).2).1 1 (by simp)
  exact absurd h31 (by decide)

/-- C10: when replication is globally disabled, `handle_new_message` leaves
the whole state (store rows, cursors, platform sends) untouched and
`get_targets_for_source` is empty for every source; outgoing messages and
edited messages are likewise complete no-ops. -/
theorem c10_disabled_is_noop (env : Env) (cfg : Config) (m : MMessage) (st : CState) :
    (is_enabled cfg = false →
      handle_new_message env cfg m st = st ∧
        ∀ sc : Int, get_targets_for_source cfg sc = []) ∧
    (m.outgoing = true → handle_new_message env cfg m st = st) ∧
    (m.edit_date.isSome = true → handle_new_message env cfg m st = st) := by
  refine ⟨?_, ?_, ?_⟩
  · intro h
    refine ⟨by simp [handle_new_message, h], fun sc => by simp [get_targets_for_source, h]⟩
  · intro h
    by_cases he : is_enabled cfg <;> simp [handle_new_message, h, he]
  · intro h
    by_cases he : is_enabled cfg
    · by_cases ho : m.outgoing <;> simp [handle_new_message, h, he, ho]
    · simp [handle_new_message, he]

/-- C10 witness: with the default (disabled) configuration the listener
does nothing and no source has targets. -/
theorem c10_witness :
    handle_new_message envMix ({} : Config) (textMsg 9) cstate0 = cstate0 ∧
    get_targets_for_source ({} : Config) 1 = [] :=
  ⟨((c10_disabled_is_noop envMix ({} : Config) (textMsg 9) cstate0).1 rfl).1,
   ((c10_disabled_is_noop envMix ({} : Config) (textMsg 9) cstate0).1 rfl).2 1⟩

/-- C1 counterexample: for a service message, `replicate` called twice
returns absent both times and writes no Mapping Store row at all, so
"exactly one row exists for that key after either or both calls" fails as a
universal statement over all messages. -/
theorem c1_counterexample :
    (replicate envThree 1 2 serviceMsg cstate0).1 = none ∧
    (replicate envThree 1 2 serviceMsg (replicate envThree 1 2 serviceMsg cstate0).2).1 =
      none ∧
    ((replicate envThree 1 2 serviceMsg
        (replicate envThree 1 2 serviceMsg cstate0).2).2).store.rowCount 1 5 2 = 0 := by
  decide

/-- C1 (amended): whenever the first `replicate` call succeeds with target
id `v`, the second call with the same inputs short-circuits on the
`is_replicated` check: it returns the same `v`, performs no platform send
and no write (the state is returned unchanged), and exactly one Mapping
Store row exists for `(source, message.id, target)`. -/
theorem c1_idempotent_replay {env : Env} {s t : Int} {m : MMessage} {st st' : CState}
    {v : Int} (henv : env.WF) (hwf : st.store.WF)
    (h : replicate env s t m st = (some v, st')) :
    replicate env s t m st' = (some v, st') ∧ st'.store.rowCount s m.id t = 1 := by
  have hsome := copy_message_some henv 3 st v st' hwf h
  have hs : m.service = false := by
    cases hserv : m.service
    · rfl
    · rw [replicate, copy_message_service hserv 3 st] at h
      simp at h
  have hcl : st'.store.is_cloned s m.id t = true := by
    simp [Store.is_cloned, hsome.1]
  refine ⟨?_, rowCount_eq_one hsome.2 hsome.1⟩
  rw [replicate, copy_message_cloned hs hcl 3, hsome.1]

/-- C1 witness: replaying a successfully cloned text message returns the
same id, leaves the state unchanged and the store holds exactly one row. -/
theorem c1_witness :
    replicate envThree 1 2 (textMsg 2) oneCloneState = (some 1000, oneCloneState) ∧
    oneCloneState.store.rowCount 1 2 2 = 1 :=
  @c1_idempotent_replay envThree 1 2 (textMsg 2) cstate0 oneCloneState 1000
    (by unfold Env.WF; decide) (by unfold Store.WF alist_wf; decide) (by decide)

/-- C2: a media-group member that is not the group's lowest-numbered member
makes `replicate` return absent with the state (store, cursors, cache,
sends) completely unchanged; and invoking `replicate` independently on all
three members of the album 10, 11, 12 in any of the six orders produces
exactly one submitted group send (no singular sends) and exactly the three
Mapping Store rows 10 to 100, 11 to 101, 12 to 102. -/
theorem c2_group_atomicity :
    (∀ (env : Env) (s t : Int) (m : MMessage) (gid : Int) (st : CState)
        (m0 : MMessage) (rest : List MMessage),
        m.service = false →
        st.store.is_cloned s m.id t = false →
        m.media_group_id = some gid →
        env.get_media_group gid = m0 :: rest →
        ¬ m.id = (minById m0 rest).id →
        replicate env s t m st = (none, st)) ∧
    (∀ p ∈ albumPerms,
        (albumRun p).sends =
          [{ kind := SendKind.mediaGroup, target_chat := 2, source_chat := 1,
             message_id := 10, reply_to_message_id := none }] ∧
        (albumRun p).store.message_map =
          [((1, 12, 2), 102), ((1, 11, 2), 101), ((1, 10, 2), 100)]) := by
  constructor
  · intro env s t m gid st m0 rest hs hcl hmgi hgrp hid
    have hmg : media_group_section env s t m gid (resolve_reply st.store s t m) st =
        (some none, st) := by
      by_cases hc : (s, gid, t) ∈ st.media_group_cache
      · simp [media_group_section, hc]
      · simp [media_group_section, hc, hgrp, hid]
    rw [replicate, copy_message]
    simp [copy_attempt, hs, hcl, hmgi, hmg]
  · decide

/-- C2 witness: replicating the middle album member first is an absent
no-op (the lowest member will carry the group). -/
theorem c2_witness :
    replicate envAlbum 1 2 (albumMsg 11) cstate0 = (none, cstate0) :=
  c2_group_atomicity.1 envAlbum 1 2 (albumMsg 11) 7 cstate0 (albumMsg 10)
    [albumMsg 11, albumMsg 12] (by decide) (by decide) (by decide) (by decide) (by decide)

/-- C6: when the platform signals FloodWait `w` on every send, `replicate`
sleeps `w + 1` seconds per attempt, retries the same message up to the
fixed bound of 3 retries (4 attempts total, visible as 4 identical send
calls), then gives up: it returns absent, writes no Mapping Store row, and
raises nothing -- the failure is confined to this one message. -/
theorem c6_floodwait_bounded_retry {env : Env} {s t : Int} {m : MMessage} {st : CState}
    {w : Nat}
    (hscript : ∀ n, env.script n = SendOutcome.floodWait w)
    (hs : m.service = false)
    (hcl : st.store.is_cloned s m.id t = false)
    (hmg : m.media_group_id = none)
    (hpoll : m.has_poll = false)
    (htext : ¬ m.text = "")
    (hreply : m.reply_to_message_id = none) :
    replicate env s t m st =
      (none,
       { st with
           attempts := st.attempts + 4,
           sends := st.sends ++ List.replicate 4
             { kind := SendKind.text, target_chat := t, source_chat := s,
               message_id := m.id, reply_to_message_id := none },
           slept := st.slept + 4 * (w + 1) }) := by
  have hrep : resolve_reply st.store s t m = none := by simp [resolve_reply, hreply]
  have hstep : ∀ st2 : CState, st2.store = st.store →
      copy_attempt env s t m st2 =
        Sum.inr (w, { st2 with
          attempts := st2.attempts + 1,
          sends := st2.sends ++
            [{ kind := SendKind.text, target_chat := t, source_chat := s,
               message_id := m.id, reply_to_message_id := none }] }) := by
    intro st2 hsame
    have hcl2 : st2.store.is_cloned s m.id t = false := by rw [hsame]; exact hcl
    have hrep2 : resolve_reply st2.store s t m = none := by rw [hsame]; exact hrep
    simp [copy_attempt, hs, hcl2, hmg, singular_section, singular_send_with_fallback,
      singular_send, singular_kind, hpoll, htext, CState.platform_send, outcomeFlow,
      hscript, hrep2]
  have hrun : ∀ (k : Nat) (st2 : CState), st2.store = st.store →
      copy_message env s t m k st2 =
        (none, { st2 with
          attempts := st2.attempts + (k + 1),
          sends := st2.sends ++ List.replicate (k + 1)
            { kind := SendKind.text, target_chat := t, source_chat := s,
              message_id := m.id, reply_to_message_id := none },
          slept := st2.slept + (k + 1) * (w + 1) }) := by
    intro k
    induction k with
    | zero =>
        intro st2 hsame
        rw [copy_message, hstep st2 hsame]
        dsimp only
        simp
    | succ kk ih =>
        intro st2 hsame
        rw [copy_message, hstep st2 hsame]
        dsimp only
        have h2 := ih
          { store := st2.store, media_group_cache := st2.media_group_cache,
            attempts := st2.attempts + 1,
            sends := st2.sends ++
              [{ kind := SendKind.text, target_chat := t, source_chat := s,
                 message_id := m.id, reply_to_message_id := none }],
            slept := st2.slept + (w + 1) } hsame
        rw [h2]
        refine congrArg (Prod.mk none) ?_
        dsimp only
        simp only [CState.mk.injEq, true_and]
        refine ⟨by omega, ?_, by ring⟩
        simp [List.replicate_succ, List.append_assoc]
  rw [replicate, hrun 3 st rfl]

/-- C6 witness: a perpetual FloodWait 10 on a plain text message gives 4
identical send attempts, 44 seconds of sleep, an absent result, and no
store row. -/
theorem c6_witness :
    replicate envFlood 1 2 (textMsg 5) cstate0 =
      (none,
       { cstate0 with
           attempts := cstate0.attempts + 4,
           sends := cstate0.sends ++ List.replicate 4
             { kind := SendKind.text, target_chat := 2, source_chat := 1,
               message_id := 5, reply_to_message_id := none },
           slept := cstate0.slept + 4 * (10 + 1) }) :=
  c6_floodwait_bounded_retry (fun n => rfl) rfl rfl rfl rfl (by decide) rfl

/-- C7: for every enabled mapping whose source matches, the listener calls
`replicate` and then unconditionally advances the cursor of that
(source, target) pair to the message's id -- whatever `replicate` returned,
and whatever the platform answered for earlier targets of the same
message. -/
theorem c7_listener_cursor {env : Env} {cfg : Config} {m : MMessage} {st : CState}
    (hen : is_enabled cfg = true) (hout : m.outgoing = false)
    (hedit : m.edit_date = none) :
    ∀ tc ∈ get_targets_for_source cfg m.chat_id,
      (handle_new_message env cfg m st).store.get_last_synced_id m.chat_id tc = m.id := by
  intro tc htc
  have hne : (get_targets_for_source cfg m.chat_id).isEmpty = false := by
    cases hl : get_targets_for_source cfg m.chat_id with
    | nil => rw [hl] at htc; cases htc
    | cons a l => rfl
  unfold handle_new_message
  simp only [hen, hout, hedit, Bool.not_true, Option.isSome_none, Bool.false_eq_true,
    if_false, hne]
  exact listener_fold_all env m.chat_id m _ st tc htc

/-- C7 witness: with two enabled targets and a platform that errors on the
first send, both targets' cursors still advance to the message id. -/
theorem c7_witness :
    (handle_new_message envMix cfgFan (textMsg 9) cstate0).store.get_last_synced_id 1 2 =
      9 ∧
    (handle_new_message envMix cfgFan (textMsg 9) cstate0).store.get_last_synced_id 1 3 =
      9 :=
  ⟨@c7_listener_cursor envMix cfgFan (textMsg 9) cstate0 rfl rfl rfl 2 (by decide),
   @c7_listener_cursor envMix cfgFan (textMsg 9) cstate0 rfl rfl rfl 3 (by decide)⟩

end RDT
